import Mathlib

/-!
Verification of the PeerNode messaging core (src/PeerNode.js, src/adapters/NatsAdapter.js).

The development shallowly embeds the routing, registration, header-construction and
dispatch logic of `PeerNode` as pure Lean functions.  JavaScript runtime values that
flow through the payload / header paths are modelled by the inductive type `JSVal`;
nondeterministic inputs of the real code (`crypto.randomUUID()`, the transport outcome
of `bus.request`) are passed in as explicit parameters.
-/

namespace PeerNodeModel

/-- Model of the JavaScript values that can appear as payloads and header values:
`null`, `undefined`, booleans, (integer) numbers, strings, plain objects and arrays. -/
inductive JSVal where
  | null
  | undef
  | bool (b : Bool)
  | num (n : Int)
  | str (s : String)
  | obj (fields : List (String × JSVal))
  | arr (elems : List JSVal)

/-- Model of JavaScript `typeof x === 'object'` (true for `null`, objects and arrays). -/
def typeofObject : JSVal → Bool
  | .null => true
  | .obj _ => true
  | .arr _ => true
  | _ => false

/-- Model of the loose comparison `x != null` (false exactly for `null` and `undefined`). -/
def looseNonNull : JSVal → Bool
  | .null => false
  | .undef => false
  | _ => true

/-- JavaScript truthiness of a value. -/
def truthy : JSVal → Bool
  | .null => false
  | .undef => false
  | .bool b => b
  | .num n => decide (n ≠ 0)
  | .str s => decide (s ≠ "")
  | .obj _ => true
  | .arr _ => true

mutual

/-- Model of the JavaScript string coercion `String(v)` used by
`NatsAdapter.buildHeaders` (`h.set(k, String(v))`).  Plain objects coerce to
`"[object Object]"`; arrays coerce to their elements joined by `","`. -/
def jsToString : JSVal → String
  | .null => "null"
  | .undef => "undefined"
  | .bool b => if b then "true" else "false"
  | .num n => toString n
  | .str s => s
  | .obj _ => "[object Object]"
  | .arr es => jsArrJoin es

/-- `Array.prototype.join(",")` as performed by `String(array)`. -/
def jsArrJoin : List JSVal → String
  | [] => ""
  | [e] => jsElemString e
  | e :: es => jsElemString e ++ "," ++ jsArrJoin es

/-- Element coercion inside an array join: `null`/`undefined` become the empty
string, every other value coerces as usual. -/
def jsElemString : JSVal → String
  | .null => ""
  | .undef => ""
  | .bool b => if b then "true" else "false"
  | .num n => toString n
  | .str s => s
  | .obj _ => "[object Object]"
  | .arr es => jsArrJoin es

end

/-- ASCII lower-casing, modelling `String.prototype.toLowerCase()` on the
identifier / subject strings used by PeerNode. -/
def jsLower (s : String) : String := ⟨s.data.map Char.toLower⟩

/-- Model of `String.prototype.startsWith(p)` on `s`. -/
def jsStartsWith (s p : String) : Bool := p.data.isPrefixOf s.data

/-- Remove the first occurrence of `pat` (replace it by the empty string), on
character lists. -/
def replaceFirstAux : List Char → List Char → List Char
  | [], _ => []
  | c :: rest, pat =>
    if pat.isPrefixOf (c :: rest) then (c :: rest).drop pat.length
    else c :: replaceFirstAux rest pat

/-- Model of `s.replace(pat, '')` for a plain-string `pat`: removes the first
occurrence of `pat` from `s` (used for `subject.replace(prefix, '')`). -/
def jsReplaceFirst (s pat : String) : String := ⟨replaceFirstAux s.data pat.data⟩

/-- Leading decimal digits of a character list. -/
def takeDigits : List Char → List Char
  | [] => []
  | c :: rest => if c.isDigit then c :: takeDigits rest else []

/-- Model of `parseInt(s, 10)`: skip leading whitespace, optional sign, then the
maximal run of decimal digits; `none` models the `NaN` result when no digit is
found. -/
def jsParseInt (s : String) : Option Int :=
  let cs := s.data.dropWhile Char.isWhitespace
  let signAndRest : Int × List Char :=
    match cs with
    | '-' :: rest => (-1, rest)
    | '+' :: rest => (1, rest)
    | _ => (1, cs)
  let ds := takeDigits signAndRest.2
  if ds.isEmpty then none
  else some (signAndRest.1 * (ds.foldl (fun a c => 10 * a + (c.toNat - '0'.toNat)) 0 : Nat))

/-- JavaScript object-literal key assignment semantics: setting key `k` keeps the
key's original position if present (overwriting the value), otherwise appends. -/
def objSet (fields : List (String × JSVal)) (k : String) (v : JSVal) :
    List (String × JSVal) :=
  match fields with
  | [] => [(k, v)]
  | (k', v') :: rest => if k' = k then (k, v) :: rest else (k', v') :: objSet rest k v

/-- Property lookup on a modelled object (`o[k]`, `undefined` modelled as `none`). -/
def objGet (fields : List (String × JSVal)) (k : String) : Option JSVal :=
  (fields.find? (fun p => p.1 == k)).map (·.2)

/-- Object spread `{...base, ...extra}` restricted to the way PeerNode uses it:
every entry of `extra` is assigned into `base` in order (later entries win). -/
def objMerge (base extra : List (String × JSVal)) : List (String × JSVal) :=
  extra.foldl (fun h p => objSet h p.1 p.2) base

/-- Assignment into the wire-level (string-valued) header map, modelling
`h.set(k, v)` of the NATS headers object. -/
def hdrSet (hs : List (String × String)) (k v : String) : List (String × String) :=
  match hs with
  | [] => [(k, v)]
  | (k', v') :: rest => if k' = k then (k, v) :: rest else (k', v') :: hdrSet rest k v

/-- Wire-level header lookup, modelling `headers.get(k)` (`none` = absent). -/
def hdrGet (hs : List (String × String)) (k : String) : Option String :=
  (hs.find? (fun p => p.1 == k)).map (·.2)

/-- Model of `NatsAdapter.buildHeaders`: every entry of the header object is
`String(...)`-coerced and `set` into a fresh NATS header map. -/
def buildWireHeaders (m : List (String × JSVal)) : List (String × String) :=
  m.foldl (fun h p => hdrSet h p.1 (jsToString p.2)) []

/-- Model of `PeerNode.parsePayload`: a value that is `!= null` and of `typeof
'object'` passes through unchanged, anything else is wrapped as
`{ raw: (data !== undefined ? data : null) }`. -/
def parsePayload (data : JSVal) : JSVal :=
  if looseNonNull data && typeofObject data then data
  else .obj [("raw", match data with | .undef => .null | d => d)]

/-! ## Node identity and verb allow-list -/

/-- The `(nodeId, service)` identity of a `PeerNode`; the constructor lower-cases
both fields (`String(nodeId).toLowerCase()`), which `mkNodeIdent` models. -/
structure NodeIdent where
  nodeId : String
  service : String
deriving DecidableEq, Repr

/-- Model of the constructor's normalization of `nodeId` / `service`. -/
def mkNodeIdent (nodeId service : String) : NodeIdent :=
  ⟨jsLower nodeId, jsLower service⟩

/-- `${this.nodeId}/${this.service}` — the node's own address, used for the
`from` header. -/
def nodeAddr (n : NodeIdent) : String := n.nodeId ++ "/" ++ n.service

/-- `ALL_SYNC_METHODS` of PeerNode.js. -/
def ALL_SYNC_METHODS : List String := ["get", "post", "put", "patch", "delete"]

/-- `ALL_ASYNC_METHODS` of PeerNode.js. -/
def ALL_ASYNC_METHODS : List String :=
  ["start", "step", "finish", "fail", "cancel", "call", "emit", "stream"]

/-- `ALLOWED_METHODS` of PeerNode.js: all sync and async verbs plus the wildcard. -/
def ALLOWED_METHODS : List String := ALL_SYNC_METHODS ++ ALL_ASYNC_METHODS ++ ["*"]

/-! ## Header construction (`#makeHeaders`) -/

/-- Result of `#makeHeaders`: the built header object and whether the
"Overriding method in headers" warning was printed. -/
structure HeadersOut where
  headers : List (String × JSVal)
  warned : Bool

/-- Model of `PeerNode.#makeHeaders(method, expectReply, url, extra)`.  The
fresh value produced by `crypto.randomUUID()` is passed in as `freshTraceId`.
A (non-fatal) console warning is emitted iff `extra?.method` is truthy; the
header object is built with the five base keys and then the entries of `extra`
are spread over it (later entries win). -/
def makeHeaders (n : NodeIdent) (method : String) (expectReply : Bool) (url : JSVal)
    (freshTraceId : String) (extra : List (String × JSVal)) : HeadersOut :=
  let warned := match objGet extra "method" with
    | some v => truthy v
    | none => false
  let base : List (String × JSVal) :=
    [("method", .str method), ("url", url),
     ("expectReply", .str (if expectReply then "1" else "0")),
     ("from", .str (nodeAddr n)),
     ("traceId", .str freshTraceId)]
  { headers := objMerge base extra, warned := warned }

/-! ## Route registration (`#getRouteURLs`, `on`) -/

/-- Outcome of `#getRouteURLs`: either the computed
`(prefix, prefix_url, prefix_url_method)` triple, or one of the two
`process.exit(1)` paths (foreign subject / duplicate route). -/
inductive SetupOutcome where
  | ok (pre preUrl preUrlMethod : String)
  | exitForeign
  | exitDuplicate
deriving DecidableEq, Repr

/-- The `prefix` binding of `#getRouteURLs`:
`` `${this.nodeId}/${this.service}`.toLowerCase() ``. -/
def routePre (n : NodeIdent) : String := jsLower (n.nodeId ++ "/" ++ n.service)

/-- The `prefix_url` binding of `#getRouteURLs`: a pattern starting with `/` is
expanded with the node's own address, any other pattern is taken as-is. -/
def routeUrl (n : NodeIdent) (pat : String) : String :=
  if jsStartsWith pat "/" then routePre n ++ pat else pat

/-- The `prefix_url_method` binding of `#getRouteURLs`: the `--all` suffix for
the wildcard verb, `--<method>` otherwise. -/
def routeKey (n : NodeIdent) (method pat : String) : String :=
  if method = "*" then routeUrl n pat ++ "--all" else routeUrl n pat ++ "--" ++ method

/-- Model of `PeerNode.#getRouteURLs(method, pattern)` against the current
`routeSet`: expand a `/`-relative pattern with the node's own address, fatally
reject subjects that do not start with that address, build the `--verb`
(or `--all`) suffixed route key, and fatally reject duplicates. -/
def getRouteURLs (n : NodeIdent) (routeSet : List String) (method pat : String) :
    SetupOutcome :=
  if !jsStartsWith (routeUrl n pat) (routePre n) then .exitForeign
  else if routeSet.contains (routeKey n method pat) then .exitDuplicate
  else .ok (routePre n) (routeUrl n pat) (routeKey n method pat)

/-- Outcome of the verb-aware overload `on(method, pattern, handler)`:
either a successful subscription (the updated `routeSet`, the subscribed
subject and the node's own address), a thrown `Error`, or a fatal exit. -/
inductive OnOutcome where
  | ok (routeSet : List String) (subject : String) (pre : String)
  | thrownUnknownVerb
  | thrownWildcard
  | exitForeign
  | exitDuplicate
deriving DecidableEq, Repr

/-- Model of `PeerNode.on(method, pattern, handler)` (the verb-aware overload):
lower-case and allow-list-check the verb, lower-case the pattern, run
`#getRouteURLs`, reject the wildcard verb with a guidance error, otherwise add
the computed subject to `routeSet` and subscribe to it. -/
def onRegister (n : NodeIdent) (routeSet : List String) (verbRaw pat : String) :
    OnOutcome :=
  if !ALLOWED_METHODS.contains (jsLower verbRaw) then .thrownUnknownVerb
  else
    match getRouteURLs n routeSet (jsLower verbRaw) (jsLower pat) with
    | .exitForeign => .exitForeign
    | .exitDuplicate => .exitDuplicate
    | .ok pre _preUrl preUrlMethod =>
      if jsLower verbRaw = "*" then .thrownWildcard
      else .ok (routeSet ++ [preUrlMethod]) preUrlMethod pre

/-! ## Inbound dispatch (`#onMsg` and the adapter's `subscribe` wrapper) -/

/-- The relevant fields of a raw NATS message: its subject, the optional reply
address, and its wire headers (string-valued). -/
structure RawMsg where
  subject : String
  reply : Option String
  headers : List (String × String)
deriving DecidableEq, Repr

/-- The request context `#onMsg` builds and passes to the route handler. -/
structure Ctx where
  url : String
  subject : String
  method : Option String
  headers : List (String × String)
  expectReply : Option String
  traceId : Option String
  payload : JSVal

/-- Model of the `ctx` object construction in `#onMsg`: the headers of the raw
message are flattened into a plain map, `ctx.url` is `subject.replace(prefix, '')`,
and the payload is normalized by `parsePayload` before the handler can see it. -/
def mkCtx (data : JSVal) (msg : RawMsg) (pre : String) : Ctx :=
  { url := jsReplaceFirst msg.subject pre
    subject := msg.subject
    method := hdrGet msg.headers "method"
    headers := msg.headers
    expectReply := hdrGet msg.headers "expectReply"
    traceId := hdrGet msg.headers "traceId"
    payload := parsePayload data }

/-- Outcome of invoking a route handler on a context: a returned value
(`none` models returning `undefined`) or a thrown error carrying an optional
`err.message`. -/
inductive HandlerOutcome where
  | ok (ret : Option JSVal)
  | err (message : Option String)

/-- One wire-level publish: subject, payload, and the headers it was published
with (`none` models `nc.publish(subject, data)` with no headers argument at all). -/
structure WirePublish where
  subject : String
  payload : JSVal
  headers : Option (List (String × String))

/-- Everything observable about one `#onMsg` invocation: the context it built,
whether the route handler was invoked, the publishes it performed directly via
`bus.publish`, the errors it handed to the centralized `#handleError`, the
messages it handed to `logError`, and the value the `#onMsg` promise resolves
with (`none` models `undefined`). -/
structure DispatchResult where
  ctx : Ctx
  handlerInvoked : Bool
  publishes : List WirePublish
  sinkErrors : List (Option String)
  logs : List String
  ret : Option JSVal

/-- Model of `PeerNode.#onMsg(data, rawMsg, prefix, handler, params)`.

The nondeterministic `crypto.randomUUID()` consumed by the `#makeHeaders`
call on the route-miss path is passed in as `freshTraceId`.  Note two
faithfully modelled quirks of the source: `#makeHeaders` is called with only
three arguments (`'error', false, { res: 405 }`), so the status object binds to
the `url` parameter and `extra` stays empty; and on the handler-error path the
built headers are discarded — `#onMsg` merely returns the `{ error: ... }`
object, which the adapter publishes without headers. -/
def onMsg (n : NodeIdent) (routeSet : List String) (freshTraceId : String)
    (data : JSVal) (msg : RawMsg) (pre : String)
    (handler : Ctx → HandlerOutcome) (skipRouteCheck : Bool) : DispatchResult :=
  if !skipRouteCheck && !(routeSet.contains msg.subject) then
    -- Route miss: `errMsg` is the empty string in the source; the 405 status
    -- object is passed in the `url` argument position of `#makeHeaders`.
    { ctx := mkCtx data msg pre, handlerInvoked := false
      publishes :=
        match msg.reply with
        | some replyTo =>
          if hdrGet msg.headers "expectReply" == some "1" then
            [{ subject := replyTo
               payload := .obj [("error", .str "")]
               headers := some (buildWireHeaders
                 (makeHeaders n "error" false (.obj [("res", .num 405)])
                   freshTraceId []).headers) }]
          else []
        | none => []
      sinkErrors := [], logs := [""], ret := none }
  else
    match handler (mkCtx data msg pre) with
    | .ok v =>
      { ctx := mkCtx data msg pre, handlerInvoked := true, publishes := [],
        sinkErrors := [], logs := [], ret := v }
    | .err m =>
      -- The source also computes `#makeHeaders('error', false, { res: 500 })`
      -- here and discards it: the returned object is published by the adapter
      -- without headers.
      { ctx := mkCtx data msg pre, handlerInvoked := true, publishes := [],
        sinkErrors := [m], logs := []
        ret :=
          match msg.reply with
          | some _ =>
            if hdrGet msg.headers "expectReply" == some "1" then
              some (.obj [("error", .str (m.getD "Internal server error"))])
            else none
          | none => none }

/-- Model of the reply step in `NatsAdapter.subscribe`: when the message has a
reply address and the wrapped handler resolved with a value other than
`undefined`, that value is published to the reply address — with no headers. -/
def adapterReplyPublish (msg : RawMsg) (ret : Option JSVal) : Option WirePublish :=
  match msg.reply, ret with
  | some replyTo, some v => some { subject := replyTo, payload := v, headers := none }
  | _, _ => none

/-- All wire publishes caused by one inbound message: the publishes `#onMsg`
performs directly, followed by the adapter's headerless reply publish (if any). -/
def inboundPublishes (n : NodeIdent) (routeSet : List String) (freshTraceId : String)
    (data : JSVal) (msg : RawMsg) (pre : String)
    (handler : Ctx → HandlerOutcome) (skipRouteCheck : Bool) : List WirePublish :=
  let r := onMsg n routeSet freshTraceId data msg pre handler skipRouteCheck
  r.publishes ++ (adapterReplyPublish msg r.ret).toList

/-! ## Outbound send (`send` / `#async`) -/

/-- What the transport's `request` call did: resolved with a reply payload, or
rejected with an error whose `err.code` field is the given value (`.undef`
models an error object without a `code` property). -/
inductive TransportOutcome where
  | reply (v : JSVal)
  | fail (code : JSVal)

/-- The value a completed `send` resolves with: the decoded reply, or the
normalized failure object `{ res: parseInt(err.code || 500, 10) }` (with `none`
modelling `NaN`). -/
inductive SendValue where
  | replyVal (v : JSVal)
  | failRes (res : Option Int)

/-- Everything observable about a `send` that reached the transport: the subject
and headers handed to `bus.request`, whether the method-override warning fired,
the value the call resolves with, and the errors routed to `#handleError`. -/
structure SendOk where
  subject : String
  headers : List (String × JSVal)
  warned : Bool
  value : SendValue
  sinkErrors : List JSVal

/-- Outcome of `send(method, url, payload, opts)`: a completed call, or one of
the two synchronous throws (unknown verb, non-absolute URL). -/
inductive SendOutcome where
  | ok (r : SendOk)
  | thrownUnknownVerb (verb : String)
  | thrownNotAbsolute (url : String)

/-- Character class `[A-Za-z0-9_-]` of the `#assertAbsolute` regular expression. -/
def isUrlChar (c : Char) : Bool :=
  c.isAlpha || c.isDigit || c == '_' || c == '-'

/-- JavaScript line-terminator characters, which `.` does not match. -/
def isLineTerminator (c : Char) : Bool :=
  c == '\n' || c == '\r' || c.toNat == 0x2028 || c.toNat == 0x2029

/-- Model of the `#assertAbsolute` test `/^n\d+\/[A-Za-z0-9_-]+\/.+/.test(url)`:
`'n'`, one or more digits, `'/'`, one or more `[A-Za-z0-9_-]`, `'/'`, and at
least one non-line-terminator character. -/
def isAbsoluteUrl (s : String) : Bool :=
  match s.data with
  | 'n' :: rest =>
    let ds := rest.takeWhile Char.isDigit
    let rest1 := rest.dropWhile Char.isDigit
    if ds.isEmpty then false
    else
      match rest1 with
      | '/' :: rest2 =>
        let us := rest2.takeWhile isUrlChar
        let rest3 := rest2.dropWhile isUrlChar
        if us.isEmpty then false
        else
          match rest3 with
          | '/' :: c :: _ => !isLineTerminator c
          | _ => false
      | _ => false
  | _ => false

/-- Model of `PeerNode.send(method, url, payload, opts)` followed by `#async`:
lower-case method and url, allow-list-check the verb, build the headers (with a
fresh trace id), assert the URL is absolute, request on `url ++ "--" ++ method`,
and on transport failure route the error to `#handleError` and resolve with
`{ res: parseInt(err.code || 500, 10) }`. -/
def sendModel (n : NodeIdent) (freshTraceId : String) (methodRaw urlRaw : String)
    (extra : List (String × JSVal)) (outcome : TransportOutcome) : SendOutcome :=
  let method := jsLower methodRaw
  let url := jsLower urlRaw
  if !ALLOWED_METHODS.contains method then .thrownUnknownVerb method
  else
    let h := makeHeaders n method true (.str url) freshTraceId extra
    if !isAbsoluteUrl url then .thrownNotAbsolute url
    else
      let fullUrl := url ++ "--" ++ method
      match outcome with
      | .reply v =>
        .ok { subject := fullUrl, headers := h.headers, warned := h.warned,
              value := .replyVal v, sinkErrors := [] }
      | .fail code =>
        let base : JSVal := if truthy code then code else .num 500
        .ok { subject := fullUrl, headers := h.headers, warned := h.warned,
              value := .failRes (jsParseInt (jsToString base)), sinkErrors := [code] }

/-! ## Supporting lemmas -/

/-- A string prefix survives appending on the right. -/
theorem jsStartsWith_append {s p : String} (t : String)
    (h : jsStartsWith s p = true) : jsStartsWith (s ++ t) p = true := by
  unfold jsStartsWith at h ⊢
  rw [String.data_append, List.isPrefixOf_iff_prefix] at *
  exact h.trans (List.prefix_append _ _)

/-- Characterization of a successful `#getRouteURLs` run. -/
theorem getRouteURLs_eq_ok {n : NodeIdent} {rs : List String} {m p pre preUrl pum : String}
    (h : getRouteURLs n rs m p = .ok pre preUrl pum) :
    pre = routePre n ∧ preUrl = routeUrl n p ∧ pum = routeKey n m p ∧
    jsStartsWith (routeUrl n p) (routePre n) = true ∧ routeKey n m p ∉ rs := by
  unfold getRouteURLs at h
  by_cases h1 : jsStartsWith (routeUrl n p) (routePre n) = true
  · rw [if_neg (by simp [h1])] at h
    by_cases h2 : routeKey n m p ∈ rs
    · rw [if_pos (by simpa using h2)] at h
      cases h
    · rw [if_neg (by simpa using h2)] at h
      cases h
      exact ⟨rfl, rfl, rfl, h1, h2⟩
  · rw [if_pos (by simpa using h1)] at h
    cases h

/-- `#getRouteURLs` exits fatally on an already-registered route key (when the
prefix check passes). -/
theorem getRouteURLs_duplicate {n : NodeIdent} {rs : List String} {m p : String}
    (h1 : jsStartsWith (routeUrl n p) (routePre n) = true)
    (h2 : routeKey n m p ∈ rs) :
    getRouteURLs n rs m p = .exitDuplicate := by
  unfold getRouteURLs
  rw [if_neg (by simp [h1]), if_pos (by simpa using h2)]

/-- Characterization of a successful `on(method, pattern, handler)` run. -/
theorem onRegister_eq_ok {n : NodeIdent} {rs rs' : List String} {v p s pre : String}
    (h : onRegister n rs v p = .ok rs' s pre) :
    ALLOWED_METHODS.contains (jsLower v) = true ∧ jsLower v ≠ "*" ∧
    s = routeKey n (jsLower v) (jsLower p) ∧ pre = routePre n ∧
    rs' = rs ++ [s] ∧
    jsStartsWith (routeUrl n (jsLower p)) (routePre n) = true ∧ s ∉ rs := by
  unfold onRegister at h
  split at h
  · cases h
  · next hA =>
    split at h
    · cases h
    · cases h
    · next pre' preUrl' pum' heq =>
      split at h
      · cases h
      · next hw =>
        cases h
        obtain ⟨hpre', -, hpum', hstart, hmem⟩ := getRouteURLs_eq_ok heq
        subst hpre' hpum'
        exact ⟨by simpa using hA, hw, rfl, rfl, rfl, hstart, hmem⟩


/-- Unfolding lemma: assignment on a cons cell checks the head key first. -/
theorem objSet_cons (k1 k : String) (v1 v : JSVal) (rest : List (String × JSVal)) :
    objSet ((k1, v1) :: rest) k v =
      if k1 = k then (k, v) :: rest else (k1, v1) :: objSet rest k v := rfl

/-- Unfolding lemma: lookup on a cons cell checks the head key first. -/
theorem objGet_cons (k1 k : String) (v1 : JSVal) (rest : List (String × JSVal)) :
    objGet ((k1, v1) :: rest) k = if k1 = k then some v1 else objGet rest k := by
  by_cases h : k1 = k
  · rw [if_pos h]
    unfold objGet
    rw [List.find?_cons_of_pos rest (by simp [h])]
    rfl
  · rw [if_neg h]
    unfold objGet
    rw [List.find?_cons_of_neg rest (by simp [h])]

/-- Looking up the key just assigned yields the assigned value. -/
theorem objGet_objSet_self (l : List (String × JSVal)) (k : String) (v : JSVal) :
    objGet (objSet l k v) k = some v := by
  induction l with
  | nil => simp [objSet, objGet_cons]
  | cons p rest ih =>
    obtain ⟨k1, v1⟩ := p
    by_cases h : k1 = k
    · rw [objSet_cons, if_pos h, objGet_cons, if_pos rfl]
    · rw [objSet_cons, if_neg h, objGet_cons, if_neg h, ih]

/-- Assigning one key leaves lookups of other keys unchanged. -/
theorem objGet_objSet_ne (l : List (String × JSVal)) {k k' : String} (v : JSVal)
    (h : k' ≠ k) : objGet (objSet l k v) k' = objGet l k' := by
  induction l with
  | nil =>
    show objGet [(k, v)] k' = objGet [] k'
    rw [objGet_cons, if_neg (fun hh => h hh.symm)]
  | cons p rest ih =>
    obtain ⟨k1, v1⟩ := p
    by_cases h1 : k1 = k
    · subst h1
      rw [objSet_cons, if_pos rfl, objGet_cons, objGet_cons,
        if_neg (fun hh => h hh.symm), if_neg (fun hh => h hh.symm)]
    · rw [objSet_cons, if_neg h1, objGet_cons, objGet_cons, ih]

/-- Spreading `extra` over `base` does not touch keys that `extra` does not bind. -/
theorem objGet_objMerge_of_not_bound (extra : List (String × JSVal)) (k : String) :
    ∀ base, objGet extra k = none → objGet (objMerge base extra) k = objGet base k := by
  induction extra with
  | nil => intro base _; rfl
  | cons p rest ih =>
    obtain ⟨k1, v1⟩ := p
    intro base h
    rw [objGet_cons] at h
    by_cases hk1 : k1 = k
    · rw [if_pos hk1] at h; cases h
    · rw [if_neg hk1] at h
      show objGet (objMerge (objSet base k1 v1) rest) k = objGet base k
      rw [ih (objSet base k1 v1) h, objGet_objSet_ne base v1 (fun hh => hk1 hh.symm)]

/-- Spreading `extra` over `base` makes every key bound by `extra` (with unique
keys, as a JavaScript object has them) resolve to `extra`'s value: extras win. -/
theorem objGet_objMerge_of_bound (extra : List (String × JSVal)) (k : String) (v : JSVal) :
    ∀ base, (extra.map Prod.fst).Nodup → objGet extra k = some v →
      objGet (objMerge base extra) k = some v := by
  induction extra with
  | nil => intro base _ h; cases h
  | cons p rest ih =>
    obtain ⟨k1, v1⟩ := p
    intro base hnd h
    simp only [List.map_cons, List.nodup_cons] at hnd
    rw [objGet_cons] at h
    by_cases hk1 : k1 = k
    · rw [if_pos hk1] at h
      subst hk1
      have hrest : objGet rest k1 = none := by
        unfold objGet
        rcases hfind : List.find? (fun q => q.1 == k1) rest with - | q
        · rw [hfind]
          rfl
        · have hq1 : q.1 = k1 := by simpa using List.find?_some hfind
          have hqmem : q.1 ∈ rest.map Prod.fst :=
            List.mem_map_of_mem Prod.fst (List.mem_of_find?_eq_some hfind)
          exact absurd (hq1 ▸ hqmem) hnd.1
      show objGet (objMerge (objSet base k1 v1) rest) k1 = some v
      rw [objGet_objMerge_of_not_bound rest k1 (objSet base k1 v1) hrest,
        objGet_objSet_self]
      exact h
    · rw [if_neg hk1] at h
      show objGet (objMerge (objSet base k1 v1) rest) k = some v
      exact ih (objSet base k1 v1) hnd.2 h

/-! ## Claim theorems -/

/-- C1 (Route uniqueness): a successful registration `on(verb, path, handler)`
adds a route key that was not previously in the route table, the new table is
exactly the old one extended with that key (no entry is overwritten), and a
second registration of the same `(verb, path)` on the resulting node is rejected
fatally (`process.exit(1)` inside `#getRouteURLs`) at setup time, before any
subscription is installed — hence at most one handler owns any `(verb, path)`
for the lifetime of the node. -/
theorem routeUniqueness (n : NodeIdent) (rs rs' : List String) (v p s pre : String)
    (h : onRegister n rs v p = .ok rs' s pre) :
    s ∉ rs ∧ rs' = rs ++ [s] ∧ onRegister n rs' v p = .exitDuplicate := by
  obtain ⟨hA, hw, hs, hpre, hrs', hstart, hmem⟩ := onRegister_eq_ok h
  subst hs hrs'
  refine ⟨hmem, rfl, ?_⟩
  unfold onRegister
  rw [if_neg (by rw [hA]; decide)]
  rw [getRouteURLs_duplicate hstart (by simp)]

/-- Witness for C1: registering `(post, /x)` on node `n1/gc` succeeds once and
is fatally rejected the second time. -/
theorem routeUniqueness_witness :
    "n1/gc/x--post" ∉ ([] : List String) ∧
    ["n1/gc/x--post"] = ([] : List String) ++ ["n1/gc/x--post"] ∧
    onRegister ⟨"n1", "gc"⟩ ["n1/gc/x--post"] "post" "/x" = .exitDuplicate :=
  routeUniqueness ⟨"n1", "gc"⟩ [] ["n1/gc/x--post"] "post" "/x" "n1/gc/x--post" "n1/gc"
    (by decide)

/-- C6 (Prefix safety of registration): every subject registered through the
routed API `on()` starts with the node's own `nodeId/service` address, and when
the computed subject does not start with that address, setup halts fatally
(`process.exit(1)`) instead of silently subscribing to a foreign subject. -/
theorem prefixSafety (n : NodeIdent) (rs : List String) (v p : String) :
    (∀ rs' s pre, onRegister n rs v p = .ok rs' s pre →
        pre = routePre n ∧ jsStartsWith s pre = true) ∧
    (jsStartsWith (routeUrl n (jsLower p)) (routePre n) = false →
        ALLOWED_METHODS.contains (jsLower v) = true →
        onRegister n rs v p = .exitForeign) := by
  constructor
  · intro rs' s pre h
    obtain ⟨-, hw, hs, hpre, -, hstart, -⟩ := onRegister_eq_ok h
    subst hs hpre
    refine ⟨rfl, ?_⟩
    unfold routeKey
    rw [if_neg hw]
    exact jsStartsWith_append _ (jsStartsWith_append _ hstart)
  · intro hfail hA
    unfold onRegister
    rw [if_neg (by rw [hA]; decide)]
    have hg : getRouteURLs n rs (jsLower v) (jsLower p) = .exitForeign := by
      unfold getRouteURLs
      rw [if_pos (by rw [hfail]; decide)]
    rw [hg]

/-- Witness for C6: a successful registration on `n1/gc` yields a subject with
the node's own address as its prefix, and an absolute foreign pattern
(`n2/ds/a`) makes setup exit fatally. -/
theorem prefixSafety_witness :
    ("n1/gc" = routePre ⟨"n1", "gc"⟩ ∧ jsStartsWith "n1/gc/x--post" "n1/gc" = true) ∧
    onRegister ⟨"n1", "gc"⟩ [] "get" "n2/ds/a" = .exitForeign :=
  ⟨(prefixSafety ⟨"n1", "gc"⟩ [] "post" "/x").1 ["n1/gc/x--post"] "n1/gc/x--post" "n1/gc"
      (by decide),
   (prefixSafety ⟨"n1", "gc"⟩ [] "get" "n2/ds/a").2 (by decide) (by decide)⟩

/-- C9 (Implicit — the prefix check is a plain string-prefix test): the
foreign-subject check of `#getRouteURLs` is `String.prototype.startsWith` on raw
characters with no segment-boundary requirement, so any (lower-case) absolute
pattern whose raw characters merely begin with the characters of the node's
`nodeId/service` address passes the check and is registered, even when the
address is not followed by a `/` boundary. -/
theorem prefixCheckPlainString (rs : List String) (p : String)
    (hlow : jsLower p = p)
    (hslash : jsStartsWith p "/" = false)
    (hpre : jsStartsWith p "n1/gc" = true)
    (hfresh : (p ++ "--get") ∉ rs) :
    onRegister ⟨"n1", "gc"⟩ rs "get" p =
      .ok (rs ++ [p ++ "--get"]) (p ++ "--get") "n1/gc" := by
  have hpreEq : routePre ⟨"n1", "gc"⟩ = "n1/gc" := by decide
  have hurl : routeUrl ⟨"n1", "gc"⟩ p = p := by
    unfold routeUrl
    rw [if_neg (by rw [hslash]; decide)]
  have hkey : routeKey ⟨"n1", "gc"⟩ "get" p = p ++ "--get" := by
    unfold routeKey
    rw [if_neg (by decide), hurl, String.append_assoc]
    rfl
  have hg : getRouteURLs ⟨"n1", "gc"⟩ rs "get" p = .ok "n1/gc" p (p ++ "--get") := by
    unfold getRouteURLs
    rw [hurl, hkey, hpreEq, hpre]
    rw [if_neg (by decide), if_neg (by simpa using hfresh)]
  have hget : jsLower "get" = "get" := by decide
  unfold onRegister
  rw [hget, hlow, if_neg (by decide), hg]
  rfl

/-- Witness for C9: node `n1/gc` accepts the near-miss foreign subject
`n1/gcx/foo` (which starts with the characters `n1/gc` but not with `n1/gc/`)
and registers it instead of rejecting it. -/
theorem prefixCheckPlainString_witness :
    jsStartsWith "n1/gcx/foo" ("n1/gc" ++ "/") = false ∧
    onRegister ⟨"n1", "gc"⟩ [] "get" "n1/gcx/foo" =
      .ok (([] : List String) ++ ["n1/gcx/foo" ++ "--get"]) ("n1/gcx/foo" ++ "--get")
        "n1/gc" :=
  ⟨by decide,
   prefixCheckPlainString [] "n1/gcx/foo" (by decide) (by decide) (by decide) (by decide)⟩

/-- C7 (Payload normalization): a non-null value of `typeof 'object'` passes
through `parsePayload` unchanged; every other value is wrapped as `{ raw: x }`,
with the absent values `null`/`undefined` wrapped as `{ raw: null }`; the result
is always a non-null object, and the dispatcher stores exactly
`parsePayload data` in the context handed to the handler — handlers always
receive a mapping and never a raw primitive. -/
theorem payloadNormalization :
    (∀ x : JSVal, looseNonNull x = true → typeofObject x = true →
        parsePayload x = x) ∧
    (∀ x : JSVal, looseNonNull x = true → typeofObject x = false →
        parsePayload x = .obj [("raw", x)]) ∧
    parsePayload .null = .obj [("raw", .null)] ∧
    parsePayload .undef = .obj [("raw", .null)] ∧
    (∀ x : JSVal, looseNonNull (parsePayload x) = true ∧
        typeofObject (parsePayload x) = true) ∧
    (∀ n rs tid data msg pre handler skip,
        (onMsg n rs tid data msg pre handler skip).ctx.payload = parsePayload data) := by
  refine ⟨?_, ?_, rfl, rfl, ?_, ?_⟩
  · intro x h1 h2
    unfold parsePayload
    rw [h1, h2]
    rfl
  · intro x h1 h2
    cases x <;> simp_all [parsePayload, looseNonNull, typeofObject]
  · intro x
    cases x <;> simp [parsePayload, looseNonNull, typeofObject]
  · intro n rs tid data msg pre handler skip
    unfold onMsg
    split
    · rfl
    · cases hh : handler (mkCtx data msg pre) <;> simp [hh, mkCtx]

/-- Witness for C7: a primitive payload is wrapped, an object payload passes
through unchanged. -/
theorem payloadNormalization_witness :
    parsePayload (.num 42) = .obj [("raw", .num 42)] ∧
    parsePayload (.obj [("a", .num 1)]) = .obj [("a", .num 1)] :=
  ⟨payloadNormalization.2.1 (.num 42) rfl rfl,
   payloadNormalization.1 (.obj [("a", .num 1)]) rfl rfl⟩

/-- C3 (Handler-error handling): when the registered handler of an inbound
message throws, the dispatcher hands the error to the centralized error handler
exactly once (one sink entry); if the message expects a reply (reply address
present and `expectReply = "1"`), exactly one reply is sent — the synthesized
payload `{ error: message-or-default }` — instead of the exception propagating;
if no reply is expected, nothing is published and the caller never observes the
error. -/
theorem handlerErrorHandling (n : NodeIdent) (rs : List String) (tid : String)
    (data : JSVal) (msg : RawMsg) (pre : String) (handler : Ctx → HandlerOutcome)
    (m : Option String)
    (hroute : rs.contains msg.subject = true)
    (hthrow : handler (mkCtx data msg pre) = .err m) :
    (onMsg n rs tid data msg pre handler false).handlerInvoked = true ∧
    (onMsg n rs tid data msg pre handler false).sinkErrors = [m] ∧
    (∀ replyTo, msg.reply = some replyTo →
        hdrGet msg.headers "expectReply" = some "1" →
        inboundPublishes n rs tid data msg pre handler false =
          [{ subject := replyTo
             payload := .obj [("error", .str (m.getD "Internal server error"))]
             headers := none }]) ∧
    (hdrGet msg.headers "expectReply" ≠ some "1" →
        inboundPublishes n rs tid data msg pre handler false = []) ∧
    (msg.reply = none →
        inboundPublishes n rs tid data msg pre handler false = []) := by
  have hoM : onMsg n rs tid data msg pre handler false =
      { ctx := mkCtx data msg pre, handlerInvoked := true, publishes := [],
        sinkErrors := [m], logs := [],
        ret := match msg.reply with
          | some _ =>
            if hdrGet msg.headers "expectReply" == some "1" then
              some (.obj [("error", .str (m.getD "Internal server error"))])
            else none
          | none => none } := by
    unfold onMsg
    rw [if_neg (by rw [hroute]; decide), hthrow]
  refine ⟨by rw [hoM], by rw [hoM], ?_, ?_, ?_⟩
  · intro replyTo h1 h2
    unfold inboundPublishes
    rw [hoM, h1, h2]
    simp [adapterReplyPublish, h1]
  · intro h2
    unfold inboundPublishes
    rw [hoM]
    rcases msg.reply with - | r
    · simp [adapterReplyPublish]
    · have : (hdrGet msg.headers "expectReply" == some "1") = false := by
        simpa using h2
      rw [this]
      simp [adapterReplyPublish]
  · intro h1
    unfold inboundPublishes
    rw [hoM, h1]
    simp [adapterReplyPublish]

/-- Witness for C3: a handler throwing `boom` on a registered route with
`expectReply = "1"` yields one sink entry and exactly one reply
`{ error: "boom" }`. -/
theorem handlerErrorHandling_witness :
    (onMsg ⟨"n1", "gc"⟩ ["n1/gc/unit/exp/add--post"] "t-c3" (.obj [])
        ⟨"n1/gc/unit/exp/add--post", some "_inbox.c3",
          [("method", "post"), ("expectReply", "1"), ("traceId", "t-req3")]⟩
        "n1/gc" (fun _ => .err (some "boom")) false).sinkErrors = [some "boom"] ∧
    inboundPublishes ⟨"n1", "gc"⟩ ["n1/gc/unit/exp/add--post"] "t-c3" (.obj [])
        ⟨"n1/gc/unit/exp/add--post", some "_inbox.c3",
          [("method", "post"), ("expectReply", "1"), ("traceId", "t-req3")]⟩
        "n1/gc" (fun _ => .err (some "boom")) false =
      [{ subject := "_inbox.c3"
         payload := .obj [("error", .str ((some "boom").getD "Internal server error"))]
         headers := none }] :=
  ⟨(handlerErrorHandling ⟨"n1", "gc"⟩ ["n1/gc/unit/exp/add--post"] "t-c3" (.obj [])
      ⟨"n1/gc/unit/exp/add--post", some "_inbox.c3",
        [("method", "post"), ("expectReply", "1"), ("traceId", "t-req3")]⟩
      "n1/gc" (fun _ => .err (some "boom")) (some "boom") (by decide) rfl).2.1,
   (handlerErrorHandling ⟨"n1", "gc"⟩ ["n1/gc/unit/exp/add--post"] "t-c3" (.obj [])
      ⟨"n1/gc/unit/exp/add--post", some "_inbox.c3",
        [("method", "post"), ("expectReply", "1"), ("traceId", "t-req3")]⟩
      "n1/gc" (fun _ => .err (some "boom")) (some "boom") (by decide) rfl).2.2.1
      "_inbox.c3" rfl rfl⟩

/-- Unfolding lemma: the header object built by `#makeHeaders` is the five base
entries with `extra` spread over them. -/
theorem makeHeaders_headers_eq (n : NodeIdent) (method : String) (er : Bool)
    (url : JSVal) (tid : String) (extra : List (String × JSVal)) :
    (makeHeaders n method er url tid extra).headers =
      objMerge [("method", .str method), ("url", url),
        ("expectReply", .str (if er then "1" else "0")),
        ("from", .str (nodeAddr n)), ("traceId", .str tid)] extra := rfl

/-- Unfolding lemma: the warning flag of `#makeHeaders` is the truthiness of
`extra?.method`. -/
theorem makeHeaders_warned_eq (n : NodeIdent) (method : String) (er : Bool)
    (url : JSVal) (tid : String) (extra : List (String × JSVal)) :
    (makeHeaders n method er url tid extra).warned =
      (match objGet extra "method" with
        | some v => truthy v
        | none => false) := rfl

/-- C2 (code bug — route-not-found status): at a concrete unmatched-route
message with `expectReply = "1"` and a reply address, no handler runs, the
condition is logged and an error reply `{ error: "" }` is sent — but the reply's
wire headers carry no `res` status key at all: the source calls `#makeHeaders`
with three arguments against its four-parameter signature, so `{ res: 405 }`
binds to the `url` parameter and is String-coerced to `"[object Object]"`.  The
handler-exception reply (last conjunct) is published by the adapter with no
headers whatsoever, so route-not-found and handler-failure carry no
distinguishing status markers on the wire. -/
theorem routeNotFoundStatusBug :
    (onMsg ⟨"n1", "gc"⟩ ["n1/gc/x--post"] "t-fresh2" (.obj [("a", .num 1)])
        ⟨"n1/gc/x--delete", some "_inbox.c2",
          [("method", "delete"), ("expectReply", "1"), ("traceId", "t-req2")]⟩
        "n1/gc" (fun _ => .ok (some (.str "unreachable"))) false).handlerInvoked =
      false ∧
    (onMsg ⟨"n1", "gc"⟩ ["n1/gc/x--post"] "t-fresh2" (.obj [("a", .num 1)])
        ⟨"n1/gc/x--delete", some "_inbox.c2",
          [("method", "delete"), ("expectReply", "1"), ("traceId", "t-req2")]⟩
        "n1/gc" (fun _ => .ok (some (.str "unreachable"))) false).logs = [""] ∧
    (onMsg ⟨"n1", "gc"⟩ ["n1/gc/x--post"] "t-fresh2" (.obj [("a", .num 1)])
        ⟨"n1/gc/x--delete", some "_inbox.c2",
          [("method", "delete"), ("expectReply", "1"), ("traceId", "t-req2")]⟩
        "n1/gc" (fun _ => .ok (some (.str "unreachable"))) false).publishes =
      [{ subject := "_inbox.c2"
         payload := .obj [("error", .str "")]
         headers := some [("method", "error"), ("url", "[object Object]"),
                          ("expectReply", "0"), ("from", "n1/gc"),
                          ("traceId", "t-fresh2")] }] ∧
    hdrGet [("method", "error"), ("url", "[object Object]"), ("expectReply", "0"),
            ("from", "n1/gc"), ("traceId", "t-fresh2")] "res" = none ∧
    inboundPublishes ⟨"n1", "gc"⟩ ["n1/gc/x--post"] "t-fresh3" (.obj [])
        ⟨"n1/gc/x--post", some "_inbox.c2b",
          [("method", "post"), ("expectReply", "1"), ("traceId", "t-req2b")]⟩
        "n1/gc" (fun _ => .err (some "boom2")) false =
      [{ subject := "_inbox.c2b", payload := .obj [("error", .str "boom2")],
         headers := none }] :=
  ⟨rfl, rfl, rfl, rfl, rfl⟩

/-- C5 (code bug — reply trace correlation): at a concrete request carrying
`traceId = "t-orig5"`, the synthesized error reply carries the freshly generated
reply-time trace id (`"t-fresh5"`), not the request's; and a handler-result
reply is published by the adapter with no headers at all, hence with no
`traceId` whatsoever — the request's trace id is never preserved into a reply. -/
theorem replyTraceIdBug :
    ((onMsg ⟨"n1", "gc"⟩ ["n1/gc/y--post"] "t-fresh5" (.obj [])
        ⟨"n1/gc/y--get", some "_inbox.c5",
          [("method", "get"), ("expectReply", "1"), ("traceId", "t-orig5")]⟩
        "n1/gc" (fun _ => .ok none) false).publishes.map
          (fun pub => pub.headers.map (fun hs => hdrGet hs "traceId")) =
      [some (some "t-fresh5")]) ∧
    ("t-fresh5" : String) ≠ "t-orig5" ∧
    hdrGet [("method", "get"), ("expectReply", "1"), ("traceId", "t-orig5")]
      "traceId" = some "t-orig5" ∧
    inboundPublishes ⟨"n1", "gc"⟩ ["n1/gc/y--get"] "t-fresh5b" (.obj [])
        ⟨"n1/gc/y--get", some "_inbox.c5b",
          [("method", "get"), ("expectReply", "1"), ("traceId", "t-orig5")]⟩
        "n1/gc" (fun _ => .ok (some (.obj [("exp", .num 50)]))) false =
      [{ subject := "_inbox.c5b", payload := .obj [("exp", .num 50)],
         headers := none }] :=
  ⟨rfl, by decide, rfl, rfl⟩

/-- C4 counterexample: when the transport request fails with the timeout error
kind (`err.code = "TIMEOUT"`, the code the NATS client uses), the caller's
result is `{ res: NaN }` — `parseInt("TIMEOUT", 10)` has no numeric value — so
the failure result carries no numeric status code, contradicting the claim. -/
theorem outboundTimeoutNaN :
    sendModel ⟨"n1", "ag"⟩ "t-c4" "get" "n1/gc/x" [] (.fail (.str "TIMEOUT")) =
      .ok { subject := "n1/gc/x--get"
            headers := [("method", .str "get"), ("url", .str "n1/gc/x"),
                        ("expectReply", .str "1"), ("from", .str "n1/ag"),
                        ("traceId", .str "t-c4")]
            warned := false
            value := .failRes none
            sinkErrors := [.str "TIMEOUT"] } ∧
    ∀ k : Int, SendValue.failRes none ≠ SendValue.failRes (some k) := by
  refine ⟨rfl, ?_⟩
  intro k h
  simp at h

/-- C4 amended: every failed request-style send resolves (the rejection is
caught, never re-thrown to the caller), routes exactly the transport error to
the centralized handler, and yields the deterministic failure object
`{ res: parseInt(err.code || 500, 10) }`: `500` when the error has no truthy
`code`, the parsed value when the code is a decimal numeral, and `NaN` (no
numeric status) when the code is a non-numeric string. -/
theorem outboundFailureNormalization (n : NodeIdent) (tid method url : String)
    (extra : List (String × JSVal)) (code : JSVal)
    (hm : ALLOWED_METHODS.contains (jsLower method) = true)
    (hu : isAbsoluteUrl (jsLower url) = true) :
    ∃ r, sendModel n tid method url extra (.fail code) = .ok r ∧
      r.sinkErrors = [code] ∧
      r.value = .failRes (jsParseInt (jsToString
        (if truthy code then code else .num 500))) ∧
      (truthy code = false → r.value = .failRes (some 500)) := by
  unfold sendModel
  rw [if_neg (by rw [hm]; decide), if_neg (by rw [hu]; decide)]
  refine ⟨_, rfl, rfl, rfl, ?_⟩
  intro hc
  rw [hc, if_neg (by decide)]
  have h500 : jsParseInt (jsToString (JSVal.num 500)) = some (500 : Int) := by decide
  rw [h500]

/-- Witness for C4 (amended form) at an error without a `code` property. -/
theorem outboundFailureNormalization_witness :
    ∃ r, sendModel ⟨"n1", "ag"⟩ "t-c4w" "post" "n1/gc/unit" []
        (.fail JSVal.undef) = .ok r ∧
      r.sinkErrors = [JSVal.undef] ∧
      r.value = .failRes (jsParseInt (jsToString
        (if truthy JSVal.undef then JSVal.undef else .num 500))) ∧
      (truthy JSVal.undef = false → r.value = .failRes (some 500)) :=
  outboundFailureNormalization ⟨"n1", "ag"⟩ "t-c4w" "post" "n1/gc/unit" []
    JSVal.undef (by decide) (by decide)

/-- C8 counterexample: an `extra` map that binds the reserved key `traceId`
silently clobbers the freshly generated trace id — the headers carry the
caller's value and no warning is emitted (the source warns only about
`method`). -/
theorem headerClobberCounterexample :
    (makeHeaders ⟨"n1", "ag"⟩ "get" true (.str "n1/gc/x") "t-c8"
        [("traceId", .str "hijack")]).warned = false ∧
    objGet (makeHeaders ⟨"n1", "ag"⟩ "get" true (.str "n1/gc/x") "t-c8"
        [("traceId", .str "hijack")]).headers "traceId" = some (.str "hijack") ∧
    JSVal.str "hijack" ≠ JSVal.str "t-c8" := by
  refine ⟨rfl, rfl, ?_⟩
  intro h
  simp at h

/-- C8 amended (header construction): the built header object always binds the
keys `method`, `url`, `expectReply`, `from` and `traceId`; when `extra` does not
bind them they hold the verb, the `"1"`/`"0"` reply flag, the sender's
`nodeId/service` address and the fresh trace id; `extra` entries are merged in
and always win; but the non-fatal warning fires only when `extra` carries a
truthy `method` — extras override the other reserved keys silently. -/
theorem headerConstruction (n : NodeIdent) (method : String) (er : Bool)
    (url : JSVal) (tid : String) (extra : List (String × JSVal))
    (hnd : (extra.map Prod.fst).Nodup) :
    ((makeHeaders n method er url tid extra).warned = true ↔
      ∃ v, objGet extra "method" = some v ∧ truthy v = true) ∧
    (∀ k, k ∈ (["method", "url", "expectReply", "from", "traceId"] : List String) →
      (objGet (makeHeaders n method er url tid extra).headers k).isSome = true) ∧
    (objGet extra "method" = none →
      objGet (makeHeaders n method er url tid extra).headers "method" =
        some (.str method)) ∧
    (objGet extra "expectReply" = none →
      objGet (makeHeaders n method er url tid extra).headers "expectReply" =
        some (.str (if er then "1" else "0"))) ∧
    (objGet extra "from" = none →
      objGet (makeHeaders n method er url tid extra).headers "from" =
        some (.str (nodeAddr n))) ∧
    (objGet extra "traceId" = none →
      objGet (makeHeaders n method er url tid extra).headers "traceId" =
        some (.str tid)) ∧
    (∀ k v, objGet extra k = some v →
      objGet (makeHeaders n method er url tid extra).headers k = some v) := by
  have hkeys : ∀ k v0,
      objGet [("method", JSVal.str method), ("url", url),
        ("expectReply", JSVal.str (if er then "1" else "0")),
        ("from", JSVal.str (nodeAddr n)), ("traceId", JSVal.str tid)] k = some v0 →
      (objGet (makeHeaders n method er url tid extra).headers k).isSome = true := by
    intro k v0 hbase
    rcases hx : objGet extra k with - | v
    · rw [makeHeaders_headers_eq, objGet_objMerge_of_not_bound extra k _ hx, hbase]
      rfl
    · rw [makeHeaders_headers_eq, objGet_objMerge_of_bound extra k v _ hnd hx]
      rfl
  refine ⟨?_, ?_, ?_, ?_, ?_, ?_, ?_⟩
  · rw [makeHeaders_warned_eq]
    rcases hm : objGet extra "method" with - | v
    · simp
    · simp
  · intro k hk
    fin_cases hk
    · exact hkeys "method" (JSVal.str method) rfl
    · exact hkeys "url" url rfl
    · exact hkeys "expectReply" (JSVal.str (if er then "1" else "0")) rfl
    · exact hkeys "from" (JSVal.str (nodeAddr n)) rfl
    · exact hkeys "traceId" (JSVal.str tid) rfl
  · intro hx
    rw [makeHeaders_headers_eq, objGet_objMerge_of_not_bound extra _ _ hx]
    rfl
  · intro hx
    rw [makeHeaders_headers_eq, objGet_objMerge_of_not_bound extra _ _ hx]
    rfl
  · intro hx
    rw [makeHeaders_headers_eq, objGet_objMerge_of_not_bound extra _ _ hx]
    rfl
  · intro hx
    rw [makeHeaders_headers_eq, objGet_objMerge_of_not_bound extra _ _ hx]
    rfl
  · intro k v hx
    rw [makeHeaders_headers_eq, objGet_objMerge_of_bound extra k v _ hnd hx]

/-- Witness for C8 (amended form): with a non-reserved extra entry, the fresh
trace id is kept. -/
theorem headerConstruction_witness :
    objGet (makeHeaders ⟨"n1", "ag"⟩ "get" true (.str "n1/gc/x") "t-c8w"
        [("x-tag", .str "7")]).headers "traceId" = some (.str "t-c8w") :=
  (headerConstruction ⟨"n1", "ag"⟩ "get" true (.str "n1/gc/x") "t-c8w"
    [("x-tag", .str "7")] (by decide)).2.2.2.2.2.1 rfl

/-- C10 (wildcard in the outbound allow-list): `send("*", url, payload)` passes
the allow-list check (`ALLOWED_METHODS` contains `"*"`), and proceeds as a
request-style call on subject `url ++ "--*"` with `expectReply = "1"`; a verb
outside the allow-list-plus-wildcard set throws the unknown-verb error whatever
the transport would do; and the receiving side never accepts a wildcard
registration through `on()`. -/
theorem sendWildcardAllowed (n : NodeIdent) (tid url : String)
    (extra : List (String × JSVal)) (outcome : TransportOutcome)
    (hu : isAbsoluteUrl (jsLower url) = true) :
    (∃ r, sendModel n tid "*" url extra outcome = .ok r ∧
        r.subject = jsLower url ++ "--" ++ "*" ∧
        (objGet extra "expectReply" = none →
          objGet r.headers "expectReply" = some (.str "1"))) ∧
    (∀ m, ALLOWED_METHODS.contains (jsLower m) = false →
        sendModel n tid m url extra outcome = .thrownUnknownVerb (jsLower m)) ∧
    (∀ rs p rs2 s pre2, onRegister n rs "*" p ≠ .ok rs2 s pre2) := by
  have hstar : jsLower "*" = "*" := by decide
  refine ⟨?_, ?_, ?_⟩
  · unfold sendModel
    rw [hstar, if_neg (by decide), if_neg (by rw [hu]; decide)]
    have hrep : objGet extra "expectReply" = none →
        objGet (makeHeaders n "*" true (.str (jsLower url)) tid extra).headers
          "expectReply" = some (.str "1") := by
      intro hx
      rw [makeHeaders_headers_eq, objGet_objMerge_of_not_bound extra _ _ hx]
      rfl
    rcases outcome with v | code
    · exact ⟨_, rfl, rfl, hrep⟩
    · exact ⟨_, rfl, rfl, hrep⟩
  · intro m hm
    unfold sendModel
    rw [if_pos (by rw [hm]; decide)]
  · intro rs p rs2 s pre2 hcontra
    obtain ⟨-, hw, -⟩ := onRegister_eq_ok hcontra
    exact hw hstar

/-- Witness for C10: on node `n1/ag`, `send("*", "n1/gc/x")` completes against a
transport reply, and the unknown verb `zap` throws. -/
theorem sendWildcardAllowed_witness :
    (∃ r, sendModel ⟨"n1", "ag"⟩ "t-c10" "*" "n1/gc/x" [] (.reply (.obj [])) =
        .ok r ∧
      r.subject = jsLower "n1/gc/x" ++ "--" ++ "*" ∧
      (objGet ([] : List (String × JSVal)) "expectReply" = none →
        objGet r.headers "expectReply" = some (.str "1"))) ∧
    sendModel ⟨"n1", "ag"⟩ "t-c10" "zap" "n1/gc/x" [] (.reply (.obj [])) =
      .thrownUnknownVerb (jsLower "zap") :=
  ⟨(sendWildcardAllowed ⟨"n1", "ag"⟩ "t-c10" "n1/gc/x" [] (.reply (.obj []))
      (by decide)).1,
   (sendWildcardAllowed ⟨"n1", "ag"⟩ "t-c10" "n1/gc/x" [] (.reply (.obj []))
      (by decide)).2.1 "zap" (by decide)⟩

end PeerNodeModel
